import Mathlib

/-!
Verification of the quiet real-time noise-reduction engine.

Shallow embedding of the core audio pipeline:
 - `AudioBuffer` (src/src/core/AudioBuffer.cpp): planar multi-channel sample
   container.  32-bit float samples are modelled as exact rationals `ℚ`
   (decimal literals taken at face value); `int` indices as `ℤ`.
 - `AudioRingBuffer` (same file): SPSC ring store with two indices.
 - `EventDispatcher` (src/github-actions-simulation/src/core/EventDispatcher.cpp):
   bounded queue with drop-oldest semantics.
 - `VirtualDeviceRouter` (src/src/core/VirtualDeviceRouter.cpp): routing
   counters; platform write results enter as oracle booleans.
 - `NoiseReductionProcessor` (src/src/core/NoiseReductionProcessor.cpp):
   frame-queued denoiser.  The external RNNoise model is an opaque parameter
   `rn : σ → List ℤ → ℚ × List ℤ × σ` (probability, denoised int16 frame,
   next model state).
Real-valued statistics (RMS, dB) are embedded over `ℝ`.
-/

namespace Quiet

/-- C truncation toward zero of a rational (`static_cast<short>` /
`static_cast<int>` on a non-integral value). -/
def truncQ (q : ℚ) : ℤ :=
  if 0 ≤ q then ⌊q⌋ else ⌈q⌉

/-!  ## AudioBuffer (src/src/core/AudioBuffer.cpp)

Planar storage: `data` is the list of channels, each a list of samples.
`sampleRate` is informational.  The C++ null-`m_channels` checks coincide
with the bounds checks (memory is allocated exactly when both dimensions are
positive), so they are subsumed by the index guards. -/

structure AudioBuffer where
  numChannels : ℕ
  numSamples : ℕ
  sampleRate : ℚ
  data : List (List ℚ)
deriving DecidableEq, Repr

namespace AudioBuffer

/-- Well-formedness: the planar layout matches the dimensions. -/
def wf (b : AudioBuffer) : Prop :=
  b.data.length = b.numChannels ∧ ∀ c ∈ b.data, c.length = b.numSamples

instance (b : AudioBuffer) : Decidable b.wf := by
  unfold wf; infer_instance

/-- The samples of one channel (empty when out of range). -/
def channel (b : AudioBuffer) (ch : ℕ) : List ℚ :=
  b.data.getD ch []

/-- Guard shared by the indexed accessors of AudioBuffer.cpp lines 149-169. -/
def inBounds (b : AudioBuffer) (channel sample : ℤ) : Prop :=
  0 ≤ channel ∧ channel < b.numChannels ∧ 0 ≤ sample ∧ sample < b.numSamples

instance (b : AudioBuffer) (ch s : ℤ) : Decidable (b.inBounds ch s) := by
  unfold inBounds; infer_instance

/-- Embeds `AudioBuffer::getSample` (lines 149-155): out-of-range reads return 0.0f. -/
def getSample (b : AudioBuffer) (ch sample : ℤ) : ℚ :=
  if b.inBounds ch sample then
    (b.channel ch.toNat).getD sample.toNat 0
  else 0

/-- Embeds `AudioBuffer::setSample` (lines 157-162): out-of-range writes no-op. -/
def setSample (b : AudioBuffer) (ch sample : ℤ) (value : ℚ) : AudioBuffer :=
  if b.inBounds ch sample then
    { b with data := b.data.set ch.toNat ((b.channel ch.toNat).set sample.toNat value) }
  else b

/-- Embeds `AudioBuffer::addSample` (lines 164-169): out-of-range adds no-op. -/
def addSample (b : AudioBuffer) (ch sample : ℤ) (value : ℚ) : AudioBuffer :=
  if b.inBounds ch sample then
    let c := b.channel ch.toNat
    { b with data := b.data.set ch.toNat (c.set sample.toNat (c.getD sample.toNat 0 + value)) }
  else b

/-- Embeds `AudioBuffer::clear()` (line 103): zero every sample. -/
def clearAll (b : AudioBuffer) : AudioBuffer :=
  { b with data := b.data.map (fun c => List.replicate c.length 0) }

/-- Embeds `AudioBuffer::setSize` (lines 83-101).  A fresh allocation is modelled as
zeros; the only callers below that skip the `clear` write every sample before
reading any. -/
def setSize (b : AudioBuffer) (numChannels numSamples : ℕ) (clearExistingContent : Bool) :
    AudioBuffer :=
  if numChannels = b.numChannels ∧ numSamples = b.numSamples then
    if clearExistingContent then b.clearAll else b
  else
    { b with numChannels := numChannels, numSamples := numSamples,
             data := List.replicate numChannels (List.replicate numSamples 0) }

/-- Embeds `AudioBuffer::convertToInterleaved` (lines 355-363): element
`sample * numChannels + ch` of the result is `getSample ch sample`. -/
def convertToInterleaved (b : AudioBuffer) : List ℚ :=
  (List.range b.numSamples).flatMap
    (fun s => (List.range b.numChannels).map (fun ch : ℕ => b.getSample ch s))

/-- Embeds `AudioBuffer::convertFromInterleaved` (lines 365-375): resize to
`numSamples` keeping the channel count, then transpose back sample-major →
channel-major.  Reads beyond the given vector (undefined in C++) are
modelled as 0. -/
def convertFromInterleaved (b : AudioBuffer) (interleavedData : List ℚ) (numSamples : ℤ) :
    AudioBuffer :=
  if numSamples ≤ 0 then b
  else
    ((List.range numSamples.toNat).flatMap
        (fun s => (List.range b.numChannels).map (fun ch => (s, ch)))).foldl
      (fun acc p =>
        acc.setSample p.2 p.1 (interleavedData.getD (p.1 * b.numChannels + p.2) 0))
      (b.setSize b.numChannels numSamples.toNat false)

/-- Embeds `AudioBuffer::convertToMono` (lines 377-401): the destination is a fresh
default-constructed buffer resized to one channel; multi-channel sources are
averaged with scale `1 / numChannels`. -/
def convertToMono (b : AudioBuffer) : AudioBuffer :=
  if b.numChannels = 0 then
    { numChannels := 0, numSamples := 0, sampleRate := 44100, data := [] }
  else if b.numChannels = 1 then
    { numChannels := 1, numSamples := b.numSamples, sampleRate := 44100,
      data := [b.channel 0] }
  else
    { numChannels := 1, numSamples := b.numSamples, sampleRate := 44100,
      data := [(List.range b.numSamples).map
        (fun s => (((List.range b.numChannels).map (fun ch : ℕ => b.getSample ch s)).sum)
          * (1 / (b.numChannels : ℚ)))] }

/-- Embeds `AudioBuffer::convertToStereo` (lines 403-421) writing into `dst`:
`dst.setSize(2, n, true)` then copy within bounds (mono duplicates channel 0,
multi-channel copies the first two channels).  Only `dst.sampleRate`
survives from the destination. -/
def convertToStereo (src dst : AudioBuffer) : AudioBuffer :=
  if src.numChannels = 0 then
    { numChannels := 2, numSamples := src.numSamples, sampleRate := dst.sampleRate,
      data := List.replicate 2 (List.replicate src.numSamples 0) }
  else if src.numChannels = 1 then
    { numChannels := 2, numSamples := src.numSamples, sampleRate := dst.sampleRate,
      data := [src.channel 0, src.channel 0] }
  else
    { numChannels := 2, numSamples := src.numSamples, sampleRate := dst.sampleRate,
      data := [src.channel 0, src.channel 1] }

end AudioBuffer

/-!  ## AudioRingBuffer (src/src/core/AudioBuffer.cpp lines 718-831)

SPSC circular store.  The two atomic indices are plain naturals here (the
claims are about the sequential effect of one call). -/

structure AudioRingBuffer where
  numChannels : ℕ
  bufferSize : ℕ
  readPosition : ℕ
  writePosition : ℕ
  buf : List (List ℚ)
deriving DecidableEq, Repr

namespace AudioRingBuffer

/-- Embeds `getAvailableToRead` (lines 816-820): `(write - read + size) % size`. -/
def getAvailableToRead (rb : AudioRingBuffer) : ℕ :=
  ((rb.writePosition + rb.bufferSize) - rb.readPosition) % rb.bufferSize

/-- Embeds `getAvailableToWrite` (lines 822-824): one sample gap sentinel. -/
def getAvailableToWrite (rb : AudioRingBuffer) : ℕ :=
  rb.bufferSize - rb.getAvailableToRead - 1

/-- One channel of `AudioRingBuffer::write`'s copy loop (lines 739-746). -/
def writeChannel (bufCh src : List ℚ) (pos cap : ℕ) : List ℚ :=
  (List.range src.length).foldl
    (fun acc i => acc.set ((pos + i) % cap) (src.getD i 0)) bufCh

/-- Embeds `AudioRingBuffer::write(const AudioBuffer&)` (lines 727-750). -/
def write (rb : AudioRingBuffer) (source : AudioBuffer) : Bool × AudioRingBuffer :=
  if source.numChannels ≠ rb.numChannels then (false, rb)
  else if rb.getAvailableToWrite < source.numSamples then (false, rb)
  else
    (true,
      { rb with
        buf := (List.range rb.numChannels).map
          (fun ch => writeChannel (rb.buf.getD ch []) (source.channel ch)
            rb.writePosition rb.bufferSize),
        writePosition := (rb.writePosition + source.numSamples) % rb.bufferSize })

/-- Embeds `AudioRingBuffer::read(AudioBuffer&)` (lines 773-793): fills the
destination and advances the read index. -/
def read (rb : AudioRingBuffer) (destination : AudioBuffer) :
    Bool × AudioRingBuffer × AudioBuffer :=
  if destination.numChannels ≠ rb.numChannels ∨
      rb.getAvailableToRead < destination.numSamples then
    (false, rb, destination)
  else
    (true,
      { rb with readPosition := (rb.readPosition + destination.numSamples) % rb.bufferSize },
      { destination with
        data := (List.range rb.numChannels).map
          (fun ch => (List.range destination.numSamples).map
            (fun i => (rb.buf.getD ch []).getD ((rb.readPosition + i) % rb.bufferSize) 0)) })

end AudioRingBuffer

/-!  ## EventDispatcher (src/github-actions-simulation/src/core/EventDispatcher.cpp)

Only the queue/counter effect of `publish` matters for the claims; the
dispatch thread, listener registry and timestamps are collaborators. -/

structure Event (α : Type) where
  etype : ℕ
  payload : α
deriving DecidableEq, Repr

structure DispatcherState (α : Type) where
  running : Bool
  /-- front of the list is the oldest queued event -/
  eventQueue : List (Event α)
  maxQueueSize : ℕ
  eventsPublished : ℕ
  eventsDropped : ℕ
  /-- Embeds `m_eventFilters`: `true` means the kind is filtered (rejected). -/
  filters : ℕ → Bool

namespace DispatcherState

/-- Embeds `EventDispatcher::publish` (lines 53-88): reject when not running or
filtered; when the queue is at capacity drop the oldest and count it; then
enqueue and count the publication. -/
def publish {α : Type} (s : DispatcherState α) (e : Event α) : DispatcherState α :=
  if ¬s.running then s
  else if s.filters e.etype then s
  else
    let s1 :=
      if s.eventQueue.length ≥ s.maxQueueSize then
        { s with eventQueue := s.eventQueue.tail, eventsDropped := s.eventsDropped + 1 }
      else s
    { s1 with eventQueue := s1.eventQueue ++ [e],
              eventsPublished := s1.eventsPublished + 1 }

/-- A sequence of `publish` calls from a single thread. -/
def publishList {α : Type} (s : DispatcherState α) (l : List (Event α)) : DispatcherState α :=
  l.foldl publish s

end DispatcherState

/-!  ## VirtualDeviceRouter (src/src/core/VirtualDeviceRouter.cpp)

`routeAudioBuffer` (lines 788-856), restricted to the control flow and the
counters the claims are about.  The platform `writeAudio` result, the
`isDeviceConnected` probe and the reconnection outcome are oracle booleans
supplied per call. -/

structure RouterState where
  isRouting : Bool
  hasPlatformImpl : Bool
  buffersRouted : ℕ
  droppedBuffers : ℕ
  deviceConnected : Bool
deriving DecidableEq, Repr

namespace RouterState

/-- Embeds `VirtualDeviceRouter::routeAudioBuffer`: guard (line 789), then exactly
one of `m_buffersRouted++` (line 826) or `m_droppedBuffers++` (line 846);
a failed write probes the device and may reconnect (lines 849-852). -/
def routeAudioBuffer (s : RouterState) (writeOk stillConnected reconnectOk : Bool) :
    Bool × RouterState :=
  if ¬s.isRouting ∨ ¬s.hasPlatformImpl then (false, s)
  else if writeOk then
    (true, { s with buffersRouted := s.buffersRouted + 1 })
  else
    (false,
      { s with droppedBuffers := s.droppedBuffers + 1,
               deviceConnected :=
                 if ¬stillConnected ∧ reconnectOk then true else s.deviceConnected })

/-- Repeated `routeAudioBuffer` calls; each element supplies the three
oracle booleans of one call. -/
def routeMany (s : RouterState) (calls : List (Bool × Bool × Bool)) : RouterState :=
  calls.foldl (fun acc c => (acc.routeAudioBuffer c.1 c.2.1 c.2.2).2) s

end RouterState

/-!  ## NoiseReductionProcessor (src/src/core/NoiseReductionProcessor.cpp)

`RNNOISE_FRAME_SIZE = 480`.  The external RNNoise model
(`rnnoise_process_frame`) is an opaque stateful function
`rn : σ → List ℤ → ℚ × List ℤ × σ` returning the voice probability, the
denoised int16 frame and the next model state. -/

def RNNOISE_FRAME_SIZE : ℕ := 480

/-- The external denoising model, one instance state of type `σ`. -/
def RnModel (σ : Type) : Type := σ → List ℤ → ℚ × List ℤ × σ

inductive NRLevel where
  | Low
  | Medium
  | High
deriving DecidableEq, Repr

/-- Embeds `NoiseReductionConfig` (NoiseReductionProcessor.h lines 21-32). -/
structure NoiseReductionConfig where
  level : NRLevel
  enabled : Bool
  threshold : ℚ
  adaptiveMode : Bool
deriving DecidableEq, Repr

/-- Embeds `convertFloatToShort` (lines 431-441): scale by 32767, clamp to the
int16 range, cast (truncation toward zero). -/
def convertFloatToShort (input : List ℚ) : List ℤ :=
  input.map (fun x => truncQ (max (-32768) (min 32767 (x * 32767))))

/-- Embeds `convertShortToFloat` (lines 443-450): multiply by `1 / 32768`. -/
def convertShortToFloat (input : List ℤ) : List ℚ :=
  input.map (fun i : ℤ => (i : ℚ) * (1 / 32768))

/-- Embeds `applyReductionLevel` (lines 360-396): strength by level, adaptive
softening when the voice probability beats the threshold, and extra
attenuation of non-voice frames. -/
def applyReductionLevel (config : NoiseReductionConfig) (frame : List ℚ)
    (voiceProb : ℚ) : List ℚ :=
  let reductionStrength : ℚ :=
    match config.level with
    | .Low => 1/2
    | .Medium => 7/10
    | .High => 9/10
  let reductionStrength :=
    if config.adaptiveMode then
      if voiceProb > config.threshold then
        reductionStrength * (1 - voiceProb * (1/2))
      else reductionStrength
    else reductionStrength
  if voiceProb < config.threshold then
    frame.map (fun x => x * (1 - reductionStrength * (3/10)))
  else frame

/-- Embeds `resampleFrame` (lines 452-486): linear interpolation; `static_cast<int>`
of the nonnegative positions is a floor.  Out-of-range reads (undefined in
C++ for ratios above 1) are modelled as 0. -/
def resampleFrame (input : List ℚ) (frameSize : ℕ) (upsample : Bool) (ratio : ℚ) :
    List ℚ :=
  if upsample ∧ ratio > 1 then
    (List.range (⌊(frameSize : ℚ) * ratio⌋).toNat).map (fun i =>
      let srcIndex : ℚ := (i : ℚ) / ratio
      let srcIdx : ℕ := (⌊srcIndex⌋).toNat
      let frac : ℚ := srcIndex - srcIdx
      if srcIdx < frameSize - 1 then
        input.getD srcIdx 0 * (1 - frac) + input.getD (srcIdx + 1) 0 * frac
      else input.getD (frameSize - 1) 0)
  else if ¬upsample ∧ ratio > 1 then
    (List.range frameSize).map (fun i =>
      let srcIndex : ℚ := (i : ℚ) * ratio
      let srcIdx : ℕ := (⌊srcIndex⌋).toNat
      let frac : ℚ := srcIndex - srcIdx
      let inputSize : ℕ := (⌊(frameSize : ℚ) * ratio⌋).toNat
      if srcIdx < inputSize - 1 then
        input.getD srcIdx 0 * (1 - frac) + input.getD (srcIdx + 1) 0 * frac
      else input.getD (inputSize - 1) 0)
  else input.take frameSize

/-- Sample effect of `processFrame` (lines 297-331): int16 round-trip
through the model followed by `applyReductionLevel`.  Returns the processed
frame, the voice probability and the next model state.  (The RMS/dB
statistics of the same function are embedded separately over `ℝ`.) -/
def processFrame {σ : Type} (rn : RnModel σ) (config : NoiseReductionConfig)
    (st : σ) (frame : List ℚ) : List ℚ × ℚ × σ :=
  (applyReductionLevel config
      (convertShortToFloat (rn st (convertFloatToShort frame)).2.1)
      (rn st (convertFloatToShort frame)).1,
    (rn st (convertFloatToShort frame)).1,
    (rn st (convertFloatToShort frame)).2.2)

/-- Embeds `processFrameStereo` (lines 590-605): same pipeline against a given
model instance, without the VAD/statistics side effects. -/
def processFrameStereo {σ : Type} (rn : RnModel σ) (config : NoiseReductionConfig)
    (st : σ) (frame : List ℚ) : List ℚ × σ :=
  let shorts := convertFloatToShort frame
  let r := rn st shorts
  let floats := convertShortToFloat r.2.1
  (applyReductionLevel config floats r.1, r.2.2)

/-- One iteration body of the `while` loop of `processMonoBuffer`
(lines 252-280): extract 480 samples, optionally resample to 48 kHz and
back, run the model. -/
def processStep {σ : Type} (rn : RnModel σ) (config : NoiseReductionConfig)
    (needsResampling : Bool) (ratio : ℚ) (working : List ℚ) (st : σ) :
    List ℚ × σ :=
  if needsResampling then
    let temp := resampleFrame working RNNOISE_FRAME_SIZE true ratio
    let r := processFrame rn config st (temp.take RNNOISE_FRAME_SIZE)
    let temp1 := r.1 ++ temp.drop RNNOISE_FRAME_SIZE
    (resampleFrame temp1 RNNOISE_FRAME_SIZE false ratio, r.2.2)
  else
    let r := processFrame rn config st working
    (r.1, r.2.2)

/-- The queueing `while` loop of `processMonoBuffer` (lines 252-280), with
explicit fuel (each iteration consumes 480 ≥ 1 samples, so
`inputQueue.length` iterations always suffice). -/
def processQueueFuel {σ : Type} (rn : RnModel σ) (config : NoiseReductionConfig)
    (needsResampling : Bool) (ratio : ℚ) :
    ℕ → List ℚ → List ℚ → σ → List ℚ × List ℚ × σ
  | 0, inQ, outQ, st => (inQ, outQ, st)
  | fuel + 1, inQ, outQ, st =>
    if inQ.length ≥ RNNOISE_FRAME_SIZE then
      let working := inQ.take RNNOISE_FRAME_SIZE
      let r := processStep rn config needsResampling ratio working st
      processQueueFuel rn config needsResampling ratio fuel
        (inQ.drop RNNOISE_FRAME_SIZE) (outQ ++ r.1) r.2
    else (inQ, outQ, st)

/-- The queueing loop run to completion. -/
def processQueue {σ : Type} (rn : RnModel σ) (config : NoiseReductionConfig)
    (needsResampling : Bool) (ratio : ℚ) (inQ outQ : List ℚ) (st : σ) :
    List ℚ × List ℚ × σ :=
  processQueueFuel rn config needsResampling ratio inQ.length inQ outQ st

/-- Processor state (NoiseReductionProcessor.h lines 109-164), restricted to
the fields the audio path reads and writes.  Statistics are embedded
separately. -/
structure DenoiserState (σ : Type) where
  isInitialized : Bool
  enabled : Bool
  config : NoiseReductionConfig
  inputQueue : List ℚ
  outputQueue : List ℚ
  leftInputQueue : List ℚ
  rightInputQueue : List ℚ
  leftOutputQueue : List ℚ
  rightOutputQueue : List ℚ
  rnState : σ
  rnStateRight : σ
  needsResampling : Bool
  resampleRatio : ℚ

/-- Embeds `processMonoBuffer` (lines 238-295): queue the incoming samples, run
complete 480-sample frames, then drain `min(outputQueue.size, numSamples)`
samples into the buffer; the zero-fill of the remainder happens only inside
the `samplesToOutput > 0` branch (lines 284-292). -/
def processMonoBuffer {σ : Type} (rn : RnModel σ) (s : DenoiserState σ)
    (data : List ℚ) : Bool × DenoiserState σ × List ℚ :=
  let numSamples := data.length
  let q := processQueue rn s.config s.needsResampling s.resampleRatio
    (s.inputQueue ++ data) s.outputQueue s.rnState
  let inQ1 := q.1
  let outQ1 := q.2.1
  let st1 := q.2.2
  let samplesToOutput := min outQ1.length numSamples
  if samplesToOutput > 0 then
    (true,
      { s with inputQueue := inQ1, outputQueue := outQ1.drop samplesToOutput,
               rnState := st1 },
      outQ1.take samplesToOutput ++ List.replicate (numSamples - samplesToOutput) 0)
  else
    (true, { s with inputQueue := inQ1, outputQueue := outQ1, rnState := st1 }, data)

/-- Embeds `NoiseReductionProcessor::process` (lines 151-192): guards, optional
mono mixdown (multi-channel frames are averaged down, never routed to
`processStereoBuffer`), the mono pipeline, and the duplication back to
stereo.  Statistics updates (lines 181-189) have no effect on the frame or
the queues.  The model never fails, so `processMonoBuffer`'s flag (always
`true`) is the returned status. -/
def process {σ : Type} (rn : RnModel σ) (s : DenoiserState σ) (buffer : AudioBuffer) :
    Bool × DenoiserState σ × AudioBuffer :=
  if ¬s.isInitialized ∨ buffer.numChannels = 0 ∨ buffer.numSamples = 0 then
    (false, s, buffer)
  else if ¬s.enabled then (true, s, buffer)
  else if buffer.numChannels > 1 then
    (true, (processMonoBuffer rn s (buffer.convertToMono.channel 0)).2.1,
      AudioBuffer.convertToStereo
        { buffer.convertToMono with
          data := [(processMonoBuffer rn s (buffer.convertToMono.channel 0)).2.2] }
        buffer)
  else
    (true, (processMonoBuffer rn s (buffer.channel 0)).2.1,
      { buffer with data := [(processMonoBuffer rn s (buffer.channel 0)).2.2] })

/-- The `while` loop of `processStereoBuffer` (lines 537-567), with fuel. -/
def processStereoQueueFuel {σ : Type} (rn : RnModel σ) (config : NoiseReductionConfig) :
    ℕ → List ℚ → List ℚ → List ℚ → List ℚ → σ → σ →
    List ℚ × List ℚ × List ℚ × List ℚ × σ × σ
  | 0, lq, rq, loq, roq, stL, stR => (lq, rq, loq, roq, stL, stR)
  | fuel + 1, lq, rq, loq, roq, stL, stR =>
    if lq.length ≥ RNNOISE_FRAME_SIZE ∧ rq.length ≥ RNNOISE_FRAME_SIZE then
      let rl := processFrameStereo rn config stL (lq.take RNNOISE_FRAME_SIZE)
      let rr := processFrameStereo rn config stR (rq.take RNNOISE_FRAME_SIZE)
      processStereoQueueFuel rn config fuel
        (lq.drop RNNOISE_FRAME_SIZE) (rq.drop RNNOISE_FRAME_SIZE)
        (loq ++ rl.1) (roq ++ rr.1) rl.2 rr.2
    else (lq, rq, loq, roq, stL, stR)

/-- The stereo queueing loop run to completion. -/
def processStereoQueue {σ : Type} (rn : RnModel σ) (config : NoiseReductionConfig)
    (lq rq loq roq : List ℚ) (stL stR : σ) :
    List ℚ × List ℚ × List ℚ × List ℚ × σ × σ :=
  processStereoQueueFuel rn config lq.length lq rq loq roq stL stR

/-- Embeds `processStereoBuffer` (lines 523-588): the two channels go through their
own model instances; the drain count is taken from the left output queue. -/
def processStereoBuffer {σ : Type} (rn : RnModel σ) (s : DenoiserState σ)
    (buffer : AudioBuffer) : Bool × DenoiserState σ × AudioBuffer :=
  if buffer.numChannels ≠ 2 then (false, s, buffer)
  else
    let numSamples := buffer.numSamples
    let q := processStereoQueue rn s.config
      (s.leftInputQueue ++ buffer.channel 0) (s.rightInputQueue ++ buffer.channel 1)
      s.leftOutputQueue s.rightOutputQueue s.rnState s.rnStateRight
    let loq1 := q.2.2.1
    let roq1 := q.2.2.2.1
    let samplesToOutput := min loq1.length numSamples
    if samplesToOutput > 0 then
      (true,
        { s with leftInputQueue := q.1, rightInputQueue := q.2.1,
                 leftOutputQueue := loq1.drop samplesToOutput,
                 rightOutputQueue := roq1.drop samplesToOutput,
                 rnState := q.2.2.2.2.1, rnStateRight := q.2.2.2.2.2 },
        { buffer with data :=
            [loq1.take samplesToOutput ++ List.replicate (numSamples - samplesToOutput) 0,
             roq1.take samplesToOutput ++ List.replicate (numSamples - samplesToOutput) 0] })
    else
      (true,
        { s with leftInputQueue := q.1, rightInputQueue := q.2.1,
                 leftOutputQueue := loq1, rightOutputQueue := roq1,
                 rnState := q.2.2.2.2.1, rnStateRight := q.2.2.2.2.2 },
        buffer)

/-!  ### Frame statistics (lines 302-358) over `ℝ` -/

/-- Embeds `calculateRMS` (lines 488-494). -/
noncomputable def calculateRMS (samples : List ℚ) : ℝ :=
  Real.sqrt ((((samples.map (fun x => x * x)).sum : ℚ) : ℝ) / samples.length)

/-- The per-frame reduction statistic of `processFrame` (line 324):
`20 * log10(max(preRMS / max(postRMS, 1e-10), 1e-10))`. -/
noncomputable def reductionDb (preRMS postRMS : ℝ) : ℝ :=
  20 * Real.logb 10 (max (preRMS / max postRMS 1e-10) 1e-10)

/-- The reduction statistic produced by processing `frame` (pre-RMS before
the model, post-RMS after `applyReductionLevel`). -/
noncomputable def frameReductionDb {σ : Type} (rn : RnModel σ)
    (config : NoiseReductionConfig) (st : σ) (frame : List ℚ) : ℝ :=
  reductionDb (calculateRMS frame) (calculateRMS (processFrame rn config st frame).1)

/-- The reduction-level EMA of `updateStats` (lines 340-342) with
`alpha = 0.1`. -/
noncomputable def emaReductionLevel (old fed : ℝ) : ℝ :=
  (1/10) * fed + (1 - 1/10) * old

/-!  ## Concrete instances used by witnesses and counterexamples -/

/-- A model that returns its input unchanged with voice probability 0.9. -/
def rnId : RnModel Unit := fun _ shorts => (9/10, shorts, ())

/-- A model that always returns the constant int16 frame `16384` (0.5 after
conversion) with voice probability 0.9. -/
def rnConst : RnModel Unit := fun _ _ => (9/10, List.replicate 480 16384, ())

/-- The default configuration of the constructor (lines 19-23). -/
def cfg0 : NoiseReductionConfig := ⟨.Medium, true, 1/2, true⟩

/-- A freshly initialized 48 kHz denoiser state: empty queues, no
resampling. -/
def s0 : DenoiserState Unit :=
  ⟨true, true, cfg0, [], [], [], [], [], [], (), (), false, 1⟩

/-- Stereo one-sample frame with distinct channels. -/
def frameA1 : AudioBuffer := ⟨2, 1, 48000, [[1/2], [-1/2]]⟩

/-- Stereo one-sample frame sharing the right channel of `frameA1`. -/
def frameB1 : AudioBuffer := ⟨2, 1, 48000, [[0], [-1/2]]⟩

/-- Mono three-sample frame with nonzero samples. -/
def b3 : AudioBuffer := ⟨1, 3, 48000, [[1/2, 1/4, 1/8]]⟩

/-- A 2-channel, 3-sample frame for the interleave round trip. -/
def b23 : AudioBuffer := ⟨2, 3, 48000, [[1, 2, 3], [4, 5, 6]]⟩

/-- A 1-channel ring buffer of capacity 8 holding zeros. -/
def rb0 : AudioRingBuffer := ⟨1, 8, 0, 0, [List.replicate 8 0]⟩

/-- A 4-sample mono source frame. -/
def src4 : AudioBuffer := ⟨1, 4, 48000, [[1, 2, 3, 4]]⟩

/-- An 8-sample mono frame (too large for `rb0`). -/
def src8 : AudioBuffer := ⟨1, 8, 48000, [[1, 2, 3, 4, 5, 6, 7, 8]]⟩

/-- A stereo destination frame (channel mismatch against `rb0`). -/
def dst2 : AudioBuffer := ⟨2, 1, 48000, [[0], [0]]⟩

/-- A 2-sample mono destination frame. -/
def dst1 : AudioBuffer := ⟨1, 2, 48000, [[0, 0]]⟩

/-- A dispatcher with capacity 4, running, nothing filtered. -/
def ds0 : DispatcherState ℕ := ⟨true, [], 4, 0, 0, fun _ => false⟩

/-- Ten distinguishable events. -/
def evs10 : List (Event ℕ) := (List.range 10).map (fun i => ⟨0, i⟩)

/-- A router that is routing with a live platform implementation. -/
def router0 : RouterState := ⟨true, true, 0, 0, true⟩

/-!  ## General list lemmas -/

theorem set_getD_self {α : Type} (l : List α) (n : ℕ) (d : α) (h : n < l.length) :
    l.set n (l.getD n d) = l := by
  induction l generalizing n with
  | nil => simp at h
  | cons a t ih =>
    cases n with
    | zero => simp
    | succ m =>
      simp only [List.getD_cons_succ, List.set_cons_succ, List.cons.injEq, true_and]
      exact ih m (by simpa using h)

theorem length_flatMap_range_const {α : Type} (f : ℕ → List α) (c : ℕ)
    (hf : ∀ s, (f s).length = c) (n : ℕ) :
    ((List.range n).flatMap f).length = n * c := by
  induction n with
  | zero => simp
  | succ m ih =>
    rw [List.range_succ, List.flatMap_append]
    simp only [List.length_append, ih, List.flatMap_cons, List.flatMap_nil,
      List.append_nil, hf]
    ring

theorem flatMap_range_getD {α : Type} (f : ℕ → List α) (c : ℕ)
    (hf : ∀ s, (f s).length = c) (n s k : ℕ) (hs : s < n) (hk : k < c) (d : α) :
    ((List.range n).flatMap f).getD (s * c + k) d = (f s).getD k d := by
  induction n with
  | zero => omega
  | succ m ih =>
    rw [List.range_succ, List.flatMap_append]
    rcases Nat.lt_or_ge s m with h | h
    · rw [List.getD_append]
      · exact ih h
      · rw [length_flatMap_range_const f c hf m]
        have : (s + 1) * c ≤ m * c := Nat.mul_le_mul_right c h
        nlinarith
    · have hsm : s = m := by omega
      subst hsm
      rw [List.getD_append_right]
      · rw [length_flatMap_range_const f c hf s]
        simp [List.flatMap_cons]
      · rw [length_flatMap_range_const f c hf s]
        omega

theorem getD_replicate_of_lt {α : Type} (a d : α) {i n : ℕ} (h : i < n) :
    (List.replicate n a).getD i d = a := by
  rw [List.getD_eq_getElem?_getD, List.getElem?_eq_getElem (by simpa using h)]
  simp

theorem getD_map_range {α : Type} (g : ℕ → α) (c k : ℕ) (hk : k < c) (d : α) :
    ((List.range c).map g).getD k d = g k := by
  rw [List.getD_eq_getElem?_getD, List.getElem?_map, List.getElem?_range hk]
  rfl

theorem foldl_id_of_fixed {α β : Type} (f : α → β → α) (a : α) (l : List β)
    (h : ∀ p ∈ l, f a p = a) : l.foldl f a = a := by
  induction l with
  | nil => rfl
  | cons p t ih =>
    rw [List.foldl_cons, h p (by simp)]
    exact ih (fun q hq => h q (by simp [hq]))

/-!  ## C9: out-of-range accessor safety -/

/-- C9.  For every AudioFrame and every channel or sample index outside the
frame's bounds, `getSample` returns 0, and `setSample` / `addSample` leave
the frame unchanged: no out-of-range access alters or observes frame
contents. -/
theorem C9_out_of_range_access_safe (b : AudioBuffer) (ch sample : ℤ) (value : ℚ)
    (h : ¬b.inBounds ch sample) :
    b.getSample ch sample = 0 ∧
    b.setSample ch sample value = b ∧
    b.addSample ch sample value = b := by
  refine ⟨?_, ?_, ?_⟩ <;>
    simp [AudioBuffer.getSample, AudioBuffer.setSample, AudioBuffer.addSample, h]

/-- Witness for C9 at a concrete frame and concrete out-of-range indices. -/
theorem C9_out_of_range_access_safe_witness :
    ¬(b3.inBounds 5 0) ∧
    (b3.getSample 5 0 = 0 ∧ b3.setSample 5 0 7 = b3 ∧ b3.addSample 5 0 7 = b3) :=
  ⟨by decide, C9_out_of_range_access_safe b3 5 0 7 (by decide)⟩

/-!  ## C8: interleave round trip -/

theorem channel_length (b : AudioBuffer) (hwf : b.wf) (ch : ℕ)
    (hch : ch < b.numChannels) : (b.channel ch).length = b.numSamples := by
  have hlt : ch < b.data.length := by rw [hwf.1]; exact hch
  have hmem : b.channel ch ∈ b.data := by
    unfold AudioBuffer.channel
    rw [List.getD_eq_getElem?_getD, List.getElem?_eq_getElem hlt]
    exact List.getElem_mem hlt
  exact hwf.2 _ hmem

theorem setSample_getSample_self (b : AudioBuffer) (hwf : b.wf) (ch s : ℕ)
    (hch : ch < b.numChannels) (hs : s < b.numSamples) :
    b.setSample ch s (b.getSample ch s) = b := by
  have hb : b.inBounds ch s :=
    ⟨Int.natCast_nonneg ch, by exact_mod_cast hch, Int.natCast_nonneg s, by exact_mod_cast hs⟩
  unfold AudioBuffer.setSample AudioBuffer.getSample
  rw [if_pos hb, if_pos hb]
  simp only [Int.toNat_natCast]
  rw [set_getD_self (b.channel ch) s 0 (by rw [channel_length b hwf ch hch]; exact hs)]
  have h2 : b.data.set ch (b.channel ch) = b.data := by
    unfold AudioBuffer.channel
    exact set_getD_self b.data ch [] (by rw [hwf.1]; exact hch)
  rw [h2]

theorem getInterleaved_entry (b : AudioBuffer) (s ch : ℕ) (hs : s < b.numSamples)
    (hch : ch < b.numChannels) :
    b.convertToInterleaved.getD (s * b.numChannels + ch) 0 = b.getSample ch s := by
  unfold AudioBuffer.convertToInterleaved
  rw [flatMap_range_getD (fun s => (List.range b.numChannels).map
      (fun ch : ℕ => b.getSample ch s)) b.numChannels (fun _ => by simp)
      b.numSamples s ch hs hch 0]
  exact getD_map_range (fun ch : ℕ => b.getSample ch s) b.numChannels ch hch 0

/-- C8.  Interleave followed by de-interleave is the identity: converting a
frame to a sample-major vector and back yields a bit-exact equal frame. -/
theorem C8_interleave_roundtrip (b : AudioBuffer) (hwf : b.wf) :
    b.convertFromInterleaved b.convertToInterleaved (b.numSamples : ℤ) = b := by
  unfold AudioBuffer.convertFromInterleaved
  rcases Nat.eq_zero_or_pos b.numSamples with h0 | hpos
  · rw [if_pos]; exact_mod_cast h0.le
  · rw [if_neg (by exact_mod_cast hpos.not_le)]
    have hsz : b.setSize b.numChannels (Int.toNat (b.numSamples : ℤ)) false = b := by
      unfold AudioBuffer.setSize
      rw [if_pos ⟨rfl, by simp⟩]
      rfl
    rw [hsz]
    apply foldl_id_of_fixed
    intro p hp
    simp only [List.mem_flatMap, List.mem_map, List.mem_range] at hp
    obtain ⟨s, hs, ch, hch, rfl⟩ := hp
    have hs1 : s < b.numSamples := by simpa using hs
    rw [getInterleaved_entry b s ch hs1 hch]
    exact setSample_getSample_self b hwf ch s hch hs1

/-- Witness for C8 at a concrete 2×3 frame. -/
theorem C8_interleave_roundtrip_witness :
    b23.wf ∧ b23.convertFromInterleaved b23.convertToInterleaved (3 : ℤ) = b23 :=
  ⟨by decide, C8_interleave_roundtrip b23 (by decide)⟩

/-!  ## C10: ring buffer guard and index semantics -/

/-- C10.  `AudioRingBuffer.write` fails (returning `false` and changing
nothing) on a channel-count mismatch or when the requested count exceeds the
available write space `capacity - 1 - available_read`; `read` fails the same
way on a mismatch or when fewer samples are available than requested; on
success the corresponding index advances by exactly the sample count modulo
the capacity while the opposite index is untouched. -/
theorem C10_ring_buffer_guards (rb : AudioRingBuffer) (source destination : AudioBuffer) :
    (rb.getAvailableToWrite = rb.bufferSize - 1 - rb.getAvailableToRead) ∧
    (source.numChannels ≠ rb.numChannels → rb.write source = (false, rb)) ∧
    (rb.getAvailableToWrite < source.numSamples → rb.write source = (false, rb)) ∧
    (source.numChannels = rb.numChannels → source.numSamples ≤ rb.getAvailableToWrite →
      (rb.write source).1 = true ∧
      (rb.write source).2.writePosition =
        (rb.writePosition + source.numSamples) % rb.bufferSize ∧
      (rb.write source).2.readPosition = rb.readPosition) ∧
    (destination.numChannels ≠ rb.numChannels → rb.read destination = (false, rb, destination)) ∧
    (rb.getAvailableToRead < destination.numSamples →
      rb.read destination = (false, rb, destination)) ∧
    (destination.numChannels = rb.numChannels →
      destination.numSamples ≤ rb.getAvailableToRead →
      (rb.read destination).1 = true ∧
      (rb.read destination).2.1.readPosition =
        (rb.readPosition + destination.numSamples) % rb.bufferSize ∧
      (rb.read destination).2.1.writePosition = rb.writePosition ∧
      (rb.read destination).2.1.buf = rb.buf) := by
  refine ⟨?_, ?_, ?_, ?_, ?_, ?_, ?_⟩
  · unfold AudioRingBuffer.getAvailableToWrite
    omega
  · intro h
    simp [AudioRingBuffer.write, h]
  · intro h
    unfold AudioRingBuffer.write
    by_cases hc : source.numChannels = rb.numChannels
    · rw [if_neg (by simp [hc]), if_pos h]
    · rw [if_pos hc]
  · intro hc hn
    unfold AudioRingBuffer.write
    rw [if_neg (by simp [hc]), if_neg (by omega)]
    exact ⟨rfl, rfl, rfl⟩
  · intro h
    unfold AudioRingBuffer.read
    rw [if_pos (Or.inl h)]
  · intro h
    unfold AudioRingBuffer.read
    rw [if_pos (Or.inr h)]
  · intro hc hn
    unfold AudioRingBuffer.read
    rw [if_neg (by push_neg; exact ⟨hc, by omega⟩)]
    exact ⟨rfl, rfl, rfl, rfl⟩

/-- Witness for C10 at a concrete capacity-8 ring buffer: a successful
4-sample write advances the write index to 4, an 8-sample write is refused,
and a stereo read is refused. -/
theorem C10_ring_buffer_guards_witness :
    ((rb0.write src4).1 = true ∧
      (rb0.write src4).2.writePosition = (0 + 4) % 8 ∧
      (rb0.write src4).2.readPosition = 0) ∧
    rb0.write src8 = (false, rb0) ∧
    rb0.read dst2 = (false, rb0, dst2) :=
  ⟨(C10_ring_buffer_guards rb0 src4 dst2).2.2.2.1 (by decide) (by decide),
   (C10_ring_buffer_guards rb0 src8 dst2).2.2.1 (by decide),
   (C10_ring_buffer_guards rb0 src4 dst2).2.2.2.2.1 (by decide)⟩

/-!  ## C5: event queue drop-oldest -/

theorem publish_preserves_control {α : Type} (s : DispatcherState α) (e : Event α) :
    (s.publish e).running = s.running ∧
    (s.publish e).maxQueueSize = s.maxQueueSize ∧
    (s.publish e).filters = s.filters := by
  unfold DispatcherState.publish
  split
  · exact ⟨rfl, rfl, rfl⟩
  · split
    · exact ⟨rfl, rfl, rfl⟩
    · split <;> exact ⟨rfl, rfl, rfl⟩

theorem publish_not_full {α : Type} (s : DispatcherState α) (e : Event α)
    (hrun : s.running = true) (hfe : s.filters e.etype = false)
    (hq : s.eventQueue.length < s.maxQueueSize) :
    (s.publish e).eventQueue = s.eventQueue ++ [e] ∧
    (s.publish e).eventsDropped = s.eventsDropped ∧
    (s.publish e).eventsPublished = s.eventsPublished + 1 := by
  unfold DispatcherState.publish
  rw [if_neg (by simp [hrun]), if_neg (by simp [hfe]), if_neg (by omega)]
  exact ⟨rfl, rfl, rfl⟩

theorem publish_full {α : Type} (s : DispatcherState α) (e : Event α)
    (hrun : s.running = true) (hfe : s.filters e.etype = false)
    (hq : s.maxQueueSize ≤ s.eventQueue.length) :
    (s.publish e).eventQueue = s.eventQueue.tail ++ [e] ∧
    (s.publish e).eventsDropped = s.eventsDropped + 1 ∧
    (s.publish e).eventsPublished = s.eventsPublished + 1 := by
  unfold DispatcherState.publish
  rw [if_neg (by simp [hrun]), if_neg (by simp [hfe]), if_pos (by omega)]
  exact ⟨rfl, rfl, rfl⟩

theorem publishList_spec {α : Type} (l : List (Event α)) (s : DispatcherState α)
    (hrun : s.running = true) (hfilt : ∀ e ∈ l, s.filters e.etype = false)
    (hcap : 0 < s.maxQueueSize) (hlen : s.eventQueue.length ≤ s.maxQueueSize) :
    (s.publishList l).eventQueue =
      (s.eventQueue ++ l).drop (s.eventQueue.length + l.length - s.maxQueueSize) ∧
    (s.publishList l).eventsDropped =
      s.eventsDropped + (s.eventQueue.length + l.length - s.maxQueueSize) ∧
    (s.publishList l).eventsPublished = s.eventsPublished + l.length := by
  induction l generalizing s with
  | nil =>
    have h0 : s.eventQueue.length + List.length ([] : List (Event α)) -
        s.maxQueueSize = 0 := by
      simp only [List.length_nil]
      omega
    rw [h0]
    simp [DispatcherState.publishList]
  | cons e t ih =>
    have hstep : s.publishList (e :: t) = (s.publish e).publishList t := by
      simp [DispatcherState.publishList]
    have hfe : s.filters e.etype = false := hfilt e (by simp)
    have hctl := publish_preserves_control s e
    have hrun1 : (s.publish e).running = true := by rw [hctl.1]; exact hrun
    have hcap1 : 0 < (s.publish e).maxQueueSize := by rw [hctl.2.1]; exact hcap
    have hfilt1 : ∀ x ∈ t, (s.publish e).filters x.etype = false := by
      intro x hx; rw [hctl.2.2]; exact hfilt x (by simp [hx])
    rcases Nat.lt_or_ge s.eventQueue.length s.maxQueueSize with hq | hq
    · obtain ⟨h1, h2, h3⟩ := publish_not_full s e hrun hfe hq
      have hlen1 : (s.publish e).eventQueue.length ≤ (s.publish e).maxQueueSize := by
        rw [h1, hctl.2.1, List.length_append]
        simp only [List.length_cons, List.length_nil]
        omega
      obtain ⟨ih1, ih2, ih3⟩ := ih (s.publish e) hrun1 hfilt1 hcap1 hlen1
      rw [hstep]
      refine ⟨?_, ?_, ?_⟩
      · rw [ih1, h1, hctl.2.1, List.append_assoc, List.singleton_append,
          List.length_append]
        congr 1
        simp only [List.length_cons, List.length_nil]
        omega
      · rw [ih2, h2, h1, hctl.2.1, List.length_append]
        simp only [List.length_cons, List.length_nil]
        omega
      · rw [ih3, h3]
        simp only [List.length_cons]
        omega
    · have hqe : s.eventQueue.length = s.maxQueueSize := by omega
      obtain ⟨a, q, hq0⟩ : ∃ a q, s.eventQueue = a :: q := by
        cases hqq : s.eventQueue with
        | nil => rw [hqq] at hqe; simp at hqe; omega
        | cons a q => exact ⟨a, q, rfl⟩
      obtain ⟨h1, h2, h3⟩ := publish_full s e hrun hfe hq
      rw [hq0, List.tail_cons] at h1
      have hql : q.length + 1 = s.maxQueueSize := by
        rw [hq0] at hqe
        simpa using hqe
      have hlen1 : (s.publish e).eventQueue.length ≤ (s.publish e).maxQueueSize := by
        rw [h1, hctl.2.1, List.length_append]
        simp only [List.length_cons, List.length_nil]
        omega
      obtain ⟨ih1, ih2, ih3⟩ := ih (s.publish e) hrun1 hfilt1 hcap1 hlen1
      rw [hstep]
      refine ⟨?_, ?_, ?_⟩
      · rw [ih1, h1, hctl.2.1, hq0, List.append_assoc, List.singleton_append,
          List.length_append]
        simp only [List.length_cons, List.length_nil]
        have e2 : q.length + 1 + (t.length + 1) - s.maxQueueSize = t.length + 1 := by
          omega
        rw [e2]
        rw [List.cons_append, List.drop_succ_cons]
        congr 1
        omega
      · rw [ih2, h2, h1, hctl.2.1, List.length_append, hq0]
        simp only [List.length_cons, List.length_nil]
        omega
      · rw [ih3, h3]
        simp only [List.length_cons]
        omega

/-- C5.  On a running dispatcher, publishing into a queue already at
capacity drops the oldest event, counts one more drop, enqueues the new
event and counts one more publication; consequently publishing `k` events
(`k` above the capacity) into an initially empty queue with no consumption
leaves exactly the last `capacity` events queued and `dropped = k - capacity`. -/
theorem C5_publish_drop_oldest {α : Type} (s : DispatcherState α) (e : Event α)
    (l : List (Event α)) :
    (s.running = true → s.filters e.etype = false →
      s.eventQueue.length = s.maxQueueSize → 0 < s.maxQueueSize →
      s.publish e = { s with eventQueue := s.eventQueue.tail ++ [e],
                             eventsDropped := s.eventsDropped + 1,
                             eventsPublished := s.eventsPublished + 1 }) ∧
    (s.running = true → (∀ ev ∈ l, s.filters ev.etype = false) →
      s.eventQueue = [] → s.eventsDropped = 0 →
      0 < s.maxQueueSize → s.maxQueueSize < l.length →
      (s.publishList l).eventQueue = l.drop (l.length - s.maxQueueSize) ∧
      (s.publishList l).eventsDropped = l.length - s.maxQueueSize ∧
      (s.publishList l).eventsPublished = s.eventsPublished + l.length) := by
  constructor
  · intro hrun hfe hq hcap
    unfold DispatcherState.publish
    rw [if_neg (by simp [hrun]), if_neg (by simp [hfe]), if_pos (by omega)]
  · intro hrun hfilt hq hd hcap hlen
    have := publishList_spec l s hrun hfilt hcap (by simp [hq])
    rw [hq] at this
    simpa [hd] using this

/-- Witness for C5: capacity 4, ten events published with no consumption;
the last four remain and six are dropped. -/
theorem C5_publish_drop_oldest_witness :
    (ds0.publishList evs10).eventQueue = evs10.drop (evs10.length - 4) ∧
    (ds0.publishList evs10).eventsDropped = evs10.length - 4 ∧
    (ds0.publishList evs10).eventsPublished = 0 + evs10.length :=
  (C5_publish_drop_oldest ds0 ⟨0, 0⟩ evs10).2 (by decide) (by decide) (by decide)
    (by decide) (by decide) (by decide)

/-!  ## C6: router counter invariant -/

theorem route_preserves_control (s : RouterState) (w c r : Bool) :
    (s.routeAudioBuffer w c r).2.isRouting = s.isRouting ∧
    (s.routeAudioBuffer w c r).2.hasPlatformImpl = s.hasPlatformImpl := by
  unfold RouterState.routeAudioBuffer
  split
  · exact ⟨rfl, rfl⟩
  · split <;> exact ⟨rfl, rfl⟩

/-- C6.  While routing with a live platform implementation, every
`routeAudioBuffer` call increments exactly one of `buffersRouted` (success)
or `droppedBuffers` (failure), so after any sequence of calls
`buffersRouted + droppedBuffers` has grown by exactly the number of calls. -/
theorem C6_route_counter_invariant (s : RouterState) (w c r : Bool)
    (calls : List (Bool × Bool × Bool))
    (hrouting : s.isRouting = true) (himpl : s.hasPlatformImpl = true) :
    ((w = true → (s.routeAudioBuffer w c r).1 = true ∧
        (s.routeAudioBuffer w c r).2.buffersRouted = s.buffersRouted + 1 ∧
        (s.routeAudioBuffer w c r).2.droppedBuffers = s.droppedBuffers) ∧
      (w = false → (s.routeAudioBuffer w c r).1 = false ∧
        (s.routeAudioBuffer w c r).2.droppedBuffers = s.droppedBuffers + 1 ∧
        (s.routeAudioBuffer w c r).2.buffersRouted = s.buffersRouted)) ∧
    (s.routeMany calls).buffersRouted + (s.routeMany calls).droppedBuffers =
      s.buffersRouted + s.droppedBuffers + calls.length := by
  constructor
  · constructor
    · intro hw
      unfold RouterState.routeAudioBuffer
      rw [if_neg (by simp [hrouting, himpl]), if_pos hw]
      exact ⟨rfl, rfl, rfl⟩
    · intro hw
      unfold RouterState.routeAudioBuffer
      rw [if_neg (by simp [hrouting, himpl]), if_neg (by simp [hw])]
      exact ⟨rfl, rfl, rfl⟩
  · induction calls generalizing s with
    | nil => simp [RouterState.routeMany]
    | cons hd t ih =>
      have hstep : s.routeMany (hd :: t) =
          ((s.routeAudioBuffer hd.1 hd.2.1 hd.2.2).2).routeMany t := by
        simp [RouterState.routeMany]
      rw [hstep]
      have hpres := route_preserves_control s hd.1 hd.2.1 hd.2.2
      have := ih (s.routeAudioBuffer hd.1 hd.2.1 hd.2.2).2
        (by rw [hpres.1, hrouting]) (by rw [hpres.2, himpl])
      rw [this]
      have hone : (s.routeAudioBuffer hd.1 hd.2.1 hd.2.2).2.buffersRouted +
          (s.routeAudioBuffer hd.1 hd.2.1 hd.2.2).2.droppedBuffers =
          s.buffersRouted + s.droppedBuffers + 1 := by
        unfold RouterState.routeAudioBuffer
        rw [if_neg (by simp [hrouting, himpl])]
        split <;> simp <;> omega
      rw [List.length_cons]
      omega

/-- Witness for C6: three calls (success, failure, success) add three to the
combined counters of a freshly routing router. -/
theorem C6_route_counter_invariant_witness :
    (router0.routeMany [(true, true, true), (false, true, true), (true, true, true)]).buffersRouted +
      (router0.routeMany [(true, true, true), (false, true, true), (true, true, true)]).droppedBuffers =
      0 + 0 + 3 :=
  (C6_route_counter_invariant router0 true true true
    [(true, true, true), (false, true, true), (true, true, true)]
    (by decide) (by decide)).2

/-!  ## C1: disabled processing is the identity -/

/-- C1.  On an initialized denoiser with a non-empty frame, if the enabled
flag is false then `process` returns success and leaves the frame bit-exact
and the state (in particular the input and output queues) unchanged. -/
theorem C1_disabled_process_identity {σ : Type} (rn : RnModel σ)
    (s : DenoiserState σ) (buffer : AudioBuffer)
    (hinit : s.isInitialized = true) (hch : buffer.numChannels ≠ 0)
    (hn : buffer.numSamples ≠ 0) (hdis : s.enabled = false) :
    process rn s buffer = (true, s, buffer) := by
  unfold process
  rw [if_neg (by simp [hinit, hch, hn]), if_pos (by simp [hdis])]

/-- Witness for C1 at a concrete disabled state and a concrete frame. -/
theorem C1_disabled_process_identity_witness :
    process rnId { s0 with enabled := false } b3 =
      (true, { s0 with enabled := false }, b3) :=
  C1_disabled_process_identity rnId { s0 with enabled := false } b3
    (by decide) (by decide) (by decide) (by decide)

/-!  ## C4: strength shaping -/

/-- C4.  For every frame, configured strength and threshold and voice
probability `p`: the base attenuation factor is 0.5 / 0.7 / 0.9 for
low / medium / high; with adaptive mode on and `p` above the threshold the
factor is reduced by the fraction `p·0.5` of itself (multiplied by
`1 − p·0.5`, as the code does); when `p` is below the threshold every output
sample is multiplied by `1 − 0.3·factor`, and frames with `p` at or above
the threshold are not attenuated further by the shaping step. -/
theorem C4_strength_shaping (config : NoiseReductionConfig) (frame : List ℚ)
    (p : ℚ) :
    (p < config.threshold →
      applyReductionLevel config frame p = frame.map (fun x => x *
        (1 - (3/10) * ((match config.level with
            | .Low => (1:ℚ)/2
            | .Medium => 7/10
            | .High => 9/10) *
          (if config.adaptiveMode = true ∧ config.threshold < p
            then 1 - p * (1/2) else 1))))) ∧
    (config.threshold ≤ p → applyReductionLevel config frame p = frame) := by
  constructor
  · intro hlt
    unfold applyReductionLevel
    rw [if_pos hlt]
    have hnp : ¬config.threshold < p := by linarith
    rcases hb : config.adaptiveMode with _ | _
    · simp only [hb, Bool.false_eq_true, if_false, false_and, mul_one]
      congr 1
      funext x
      ring
    · simp only [hb, if_true, hnp, if_false, eq_self_iff_true, true_and,
        and_false]
      congr 1
      funext x
      ring
  · intro hge
    unfold applyReductionLevel
    rw [if_neg (by linarith)]

/-- Witness for C4: low strength, non-adaptive, a non-voice frame is scaled
by 1 − 0.3·0.5, and a voice frame passes unchanged. -/
theorem C4_strength_shaping_witness :
    ((1:ℚ)/4 < (1/2) →
      applyReductionLevel ⟨.Low, true, 1/2, false⟩ [1, 2] (1/4) =
        [1, 2].map (fun x => x * (1 - (3/10) * (((1:ℚ)/2) *
          (if (false = true ∧ (1:ℚ)/2 < 1/4) then 1 - (1/4) * (1/2) else 1)))))
    ∧ ((1:ℚ)/2 ≤ 3/4 → applyReductionLevel ⟨.Low, true, 1/2, false⟩ [1, 2] (3/4) = [1, 2]) :=
  ⟨(C4_strength_shaping ⟨.Low, true, 1/2, false⟩ [1, 2] (1/4)).1,
   (C4_strength_shaping ⟨.Low, true, 1/2, false⟩ [1, 2] (3/4)).2⟩

/-!  ## Denoiser queue lemmas -/

theorem processQueueFuel_stop {σ : Type} (rn : RnModel σ) (config : NoiseReductionConfig)
    (nr : Bool) (ratio : ℚ) (inQ outQ : List ℚ) (st : σ)
    (h : inQ.length < RNNOISE_FRAME_SIZE) (fuel : ℕ) :
    processQueueFuel rn config nr ratio fuel inQ outQ st = (inQ, outQ, st) := by
  cases fuel with
  | zero => rfl
  | succ f =>
    unfold processQueueFuel
    rw [if_neg (by omega)]

theorem processQueue_stop {σ : Type} (rn : RnModel σ) (config : NoiseReductionConfig)
    (nr : Bool) (ratio : ℚ) (inQ outQ : List ℚ) (st : σ)
    (h : inQ.length < RNNOISE_FRAME_SIZE) :
    processQueue rn config nr ratio inQ outQ st = (inQ, outQ, st) :=
  processQueueFuel_stop rn config nr ratio inQ outQ st h inQ.length

theorem processMonoBuffer_small {σ : Type} (rn : RnModel σ) (s : DenoiserState σ)
    (data : List ℚ) (hin : s.inputQueue = []) (hout : s.outputQueue = [])
    (hlen : data.length < RNNOISE_FRAME_SIZE) :
    processMonoBuffer rn s data = (true, { s with inputQueue := data }, data) := by
  obtain ⟨init, en, cfg, iq, oq, liq, riq, loq, roq, rs, rsr, nr, rr⟩ := s
  simp only at hin hout
  subst hin hout
  unfold processMonoBuffer
  rw [processQueue_stop rn cfg nr rr ([] ++ data) [] rs (by simpa using hlen)]
  simp

theorem processStereoQueueFuel_stop {σ : Type} (rn : RnModel σ)
    (config : NoiseReductionConfig) (lq rq loq roq : List ℚ) (stL stR : σ)
    (h : lq.length < RNNOISE_FRAME_SIZE) (fuel : ℕ) :
    processStereoQueueFuel rn config fuel lq rq loq roq stL stR =
      (lq, rq, loq, roq, stL, stR) := by
  cases fuel with
  | zero => rfl
  | succ f =>
    unfold processStereoQueueFuel
    rw [if_neg (by omega)]

theorem processStereoQueue_stop {σ : Type} (rn : RnModel σ)
    (config : NoiseReductionConfig) (lq rq loq roq : List ℚ) (stL stR : σ)
    (h : lq.length < RNNOISE_FRAME_SIZE) :
    processStereoQueue rn config lq rq loq roq stL stR =
      (lq, rq, loq, roq, stL, stR) :=
  processStereoQueueFuel_stop rn config lq rq loq roq stL stR h lq.length

theorem processStereoBuffer_small {σ : Type} (rn : RnModel σ) (s : DenoiserState σ)
    (b : AudioBuffer) (hch : b.numChannels = 2)
    (hlin : s.leftInputQueue = []) (hlout : s.leftOutputQueue = [])
    (hrin : s.rightInputQueue = []) (hrout : s.rightOutputQueue = [])
    (hlen : (b.channel 0).length < RNNOISE_FRAME_SIZE) :
    processStereoBuffer rn s b =
      (true, { s with leftInputQueue := b.channel 0,
                      rightInputQueue := b.channel 1 }, b) := by
  obtain ⟨init, en, cfg, iq, oq, liq, riq, loq, roq, rs, rsr, nr, rr⟩ := s
  simp only at hlin hlout hrin hrout
  subst hlin hlout hrin hrout
  unfold processStereoBuffer
  rw [if_neg (by simp [hch])]
  rw [processStereoQueue_stop rn cfg ([] ++ b.channel 0) ([] ++ b.channel 1)
    [] [] rs rsr (by simpa using hlen)]
  simp

/-!  ## C3: output drain and zero fill (corrected) -/

/-- Counterexample to C3.  A three-sample frame pushed into a fresh denoiser
leaves the output queue empty after the queueing loop, and `processMonoBuffer`
then leaves the frame's original samples in place instead of zero-filling it:
the zero fill is skipped entirely when nothing is drained. -/
theorem C3_zero_fill_counterexample :
    (processQueue rnId s0.config s0.needsResampling s0.resampleRatio
      (s0.inputQueue ++ [1/2, 1/4, 1/8]) s0.outputQueue s0.rnState).2.1 = [] ∧
    (processMonoBuffer rnId s0 [1/2, 1/4, 1/8]).2.2 = [1/2, 1/4, 1/8] ∧
    (processMonoBuffer rnId s0 [1/2, 1/4, 1/8]).2.2 ≠ List.replicate 3 0 := by
  have hq := processQueue_stop rnId s0.config s0.needsResampling s0.resampleRatio
    (s0.inputQueue ++ [1/2, 1/4, 1/8]) s0.outputQueue s0.rnState (by decide)
  have hm := processMonoBuffer_small rnId s0 [1/2, 1/4, 1/8] rfl rfl (by decide)
  refine ⟨?_, ?_, ?_⟩
  · rw [hq]
    rfl
  · rw [hm]
  · rw [hm]
    norm_num [List.replicate]

/-- C3 as amended.  After the queueing loop, `min(outputQueue.size,
frame.samples)` samples are drained from the front of the output queue into
the frame and the remaining positions are zero-filled — but only when at
least one sample is drained; when the output queue is empty after the loop
(`min = 0`) the frame keeps its incoming samples unchanged and the queue is
left as the loop produced it. -/
theorem C3_drain_zero_fill_amended {σ : Type} (rn : RnModel σ)
    (s : DenoiserState σ) (data : List ℚ) :
    (0 < min (processQueue rn s.config s.needsResampling s.resampleRatio
        (s.inputQueue ++ data) s.outputQueue s.rnState).2.1.length data.length →
      (processMonoBuffer rn s data).2.2 =
        (processQueue rn s.config s.needsResampling s.resampleRatio
          (s.inputQueue ++ data) s.outputQueue s.rnState).2.1.take
            (min (processQueue rn s.config s.needsResampling s.resampleRatio
              (s.inputQueue ++ data) s.outputQueue s.rnState).2.1.length data.length) ++
          List.replicate (data.length -
            min (processQueue rn s.config s.needsResampling s.resampleRatio
              (s.inputQueue ++ data) s.outputQueue s.rnState).2.1.length data.length) 0 ∧
      (processMonoBuffer rn s data).2.1.outputQueue =
        (processQueue rn s.config s.needsResampling s.resampleRatio
          (s.inputQueue ++ data) s.outputQueue s.rnState).2.1.drop
            (min (processQueue rn s.config s.needsResampling s.resampleRatio
              (s.inputQueue ++ data) s.outputQueue s.rnState).2.1.length data.length)) ∧
    (min (processQueue rn s.config s.needsResampling s.resampleRatio
        (s.inputQueue ++ data) s.outputQueue s.rnState).2.1.length data.length = 0 →
      (processMonoBuffer rn s data).2.2 = data ∧
      (processMonoBuffer rn s data).2.1.outputQueue =
        (processQueue rn s.config s.needsResampling s.resampleRatio
          (s.inputQueue ++ data) s.outputQueue s.rnState).2.1) := by
  constructor
  · intro hk
    unfold processMonoBuffer
    rw [if_pos hk]
    exact ⟨rfl, rfl⟩
  · intro hk
    unfold processMonoBuffer
    rw [if_neg (by omega)]
    exact ⟨rfl, rfl⟩

/-!  ## C2: stereo handling of `process` (corrected) -/

theorem processMonoBuffer_fst {σ : Type} (rn : RnModel σ) (s : DenoiserState σ)
    (data : List ℚ) : (processMonoBuffer rn s data).1 = true := by
  unfold processMonoBuffer
  by_cases h : 0 < min (processQueue rn s.config s.needsResampling s.resampleRatio
      (s.inputQueue ++ data) s.outputQueue s.rnState).2.1.length data.length
  · rw [if_pos h]
  · rw [if_neg (by omega)]

theorem convertToMono_numChannels (b : AudioBuffer) (h : b.numChannels ≠ 0) :
    b.convertToMono.numChannels = 1 := by
  unfold AudioBuffer.convertToMono
  rw [if_neg h]
  split <;> rfl

theorem convertToStereo_of_mono (src dst : AudioBuffer) (h : src.numChannels = 1) :
    src.convertToStereo dst =
      ⟨2, src.numSamples, dst.sampleRate, [src.channel 0, src.channel 0]⟩ := by
  unfold AudioBuffer.convertToStereo
  rw [if_neg (by omega), if_pos h]

/-- What `process` actually does on a multi-channel frame: mixdown, mono
pipeline, duplication. -/
theorem process_multichannel {σ : Type} (rn : RnModel σ) (s : DenoiserState σ)
    (b : AudioBuffer) (hinit : s.isInitialized = true) (hen : s.enabled = true)
    (hch : 2 ≤ b.numChannels) (hn : b.numSamples ≠ 0) :
    process rn s b =
      (true, (processMonoBuffer rn s (b.convertToMono.channel 0)).2.1,
        ⟨2, b.convertToMono.numSamples, b.sampleRate,
          [(processMonoBuffer rn s (b.convertToMono.channel 0)).2.2,
           (processMonoBuffer rn s (b.convertToMono.channel 0)).2.2]⟩) := by
  unfold process
  rw [if_neg (by simp [hinit, hn]; omega), if_neg (by simp [hen]),
    if_pos (by omega)]
  rw [convertToStereo_of_mono _ b (by
    show ({ b.convertToMono with
      data := [(processMonoBuffer rn s (b.convertToMono.channel 0)).2.2] }).numChannels = 1
    have := convertToMono_numChannels b (by omega)
    simpa using this)]
  rfl

/-- C2 as amended.  For an initialized, enabled denoiser and a frame with
two or more channels, `process` does not run the independent stereo path:
it averages the channels to mono, runs the single (left) model pipeline, and
duplicates the result into both output channels, which are therefore
identical. -/
theorem C2_process_mixes_down_amended {σ : Type} (rn : RnModel σ)
    (s : DenoiserState σ) (b : AudioBuffer) (hinit : s.isInitialized = true)
    (hen : s.enabled = true) (hch : 2 ≤ b.numChannels) (hn : b.numSamples ≠ 0) :
    (process rn s b).1 = true ∧
    (process rn s b).2.2.numChannels = 2 ∧
    (process rn s b).2.2.channel 0 = (process rn s b).2.2.channel 1 ∧
    (process rn s b).2.2.channel 0 =
      (processMonoBuffer rn s (b.convertToMono.channel 0)).2.2 ∧
    (process rn s b).2.1 =
      (processMonoBuffer rn s (b.convertToMono.channel 0)).2.1 := by
  rw [process_multichannel rn s b hinit hen hch hn]
  exact ⟨rfl, rfl, rfl, rfl, rfl⟩

/-- Witness for C2 as amended, at a concrete stereo frame. -/
theorem C2_process_mixes_down_amended_witness :
    (process rnId s0 frameA1).1 = true ∧
    (process rnId s0 frameA1).2.2.numChannels = 2 ∧
    (process rnId s0 frameA1).2.2.channel 0 = (process rnId s0 frameA1).2.2.channel 1 ∧
    (process rnId s0 frameA1).2.2.channel 0 =
      (processMonoBuffer rnId s0 (frameA1.convertToMono.channel 0)).2.2 ∧
    (process rnId s0 frameA1).2.1 =
      (processMonoBuffer rnId s0 (frameA1.convertToMono.channel 0)).2.1 :=
  C2_process_mixes_down_amended rnId s0 frameA1 (by decide) (by decide)
    (by decide) (by decide)

/-- Counterexample to C2.  The channels are not processed independently and
`process` does not agree with the stereo path: two stereo frames with the
same right channel produce different right-channel outputs (the left channel
leaks through the mono mixdown), the two output channels of `process` are
identical copies, and `process` disagrees with `processStereoBuffer` (the
independent path, which here passes the short frame through unchanged) on a
concrete frame. -/
theorem C2_stereo_path_counterexample :
    frameA1.channel 1 = frameB1.channel 1 ∧
    (process rnId s0 frameA1).2.2.channel 1 ≠ (process rnId s0 frameB1).2.2.channel 1 ∧
    (process rnId s0 frameB1).2.2.channel 0 = (process rnId s0 frameB1).2.2.channel 1 ∧
    (process rnId s0 frameA1).2.2.channel 1 ≠
      (processStereoBuffer rnId s0 frameA1).2.2.channel 1 := by
  have hmixA : (AudioBuffer.convertToMono frameA1).channel 0 = [0] := by
    norm_num [AudioBuffer.convertToMono, AudioBuffer.channel, AudioBuffer.getSample,
      AudioBuffer.inBounds, frameA1, List.range_succ]
  have hmixB : (AudioBuffer.convertToMono frameB1).channel 0 = [-1/4] := by
    norm_num [AudioBuffer.convertToMono, AudioBuffer.channel, AudioBuffer.getSample,
      AudioBuffer.inBounds, frameB1, List.range_succ]
  have hA := process_multichannel rnId s0 frameA1 rfl rfl (by decide) (by decide)
  have hB := process_multichannel rnId s0 frameB1 rfl rfl (by decide) (by decide)
  have hmA := processMonoBuffer_small rnId s0 (frameA1.convertToMono.channel 0)
    rfl rfl (by rw [hmixA]; decide)
  have hmB := processMonoBuffer_small rnId s0 (frameB1.convertToMono.channel 0)
    rfl rfl (by rw [hmixB]; decide)
  have hS := processStereoBuffer_small rnId s0 frameA1 (by decide) rfl rfl rfl rfl
    (by decide)
  refine ⟨rfl, ?_, ?_, ?_⟩
  · rw [hA, hB, hmA, hmB, hmixA, hmixB]
    norm_num [AudioBuffer.channel]
  · rw [hB]
    rfl
  · rw [hA, hS, hmA, hmixA]
    norm_num [AudioBuffer.channel, frameA1]

/-- Witness for C3 as amended: a prefilled output queue of three samples
drains two into a two-sample frame (no remainder), and an empty queue leaves
a three-sample frame untouched. -/
theorem C3_drain_zero_fill_amended_witness :
    ((processMonoBuffer rnId { s0 with outputQueue := [5, 6, 7] } [1, 2]).2.2 =
      (processQueue rnId s0.config s0.needsResampling s0.resampleRatio
        (s0.inputQueue ++ [1, 2]) [5, 6, 7] s0.rnState).2.1.take
          (min (processQueue rnId s0.config s0.needsResampling s0.resampleRatio
            (s0.inputQueue ++ [1, 2]) [5, 6, 7] s0.rnState).2.1.length [1, 2].length) ++
        List.replicate ([1, 2].length -
          min (processQueue rnId s0.config s0.needsResampling s0.resampleRatio
            (s0.inputQueue ++ [1, 2]) [5, 6, 7] s0.rnState).2.1.length [1, 2].length) 0) ∧
    (processMonoBuffer rnId s0 [1/2, 1/4, 1/8]).2.2 = [1/2, 1/4, 1/8] := by
  refine ⟨?_, ?_⟩
  · exact ((C3_drain_zero_fill_amended rnId { s0 with outputQueue := [5, 6, 7] }
      [1, 2]).1 (by decide)).1
  · exact ((C3_drain_zero_fill_amended rnId s0 [1/2, 1/4, 1/8]).2 (by decide)).1

/-!  ## C7: the reduction statistic (corrected) -/

theorem calculateRMS_replicate (n : ℕ) (hn : n ≠ 0) (x : ℚ) (hx : 0 ≤ x) :
    calculateRMS (List.replicate n x) = (x : ℝ) := by
  unfold calculateRMS
  rw [List.map_replicate, List.sum_replicate, List.length_replicate, nsmul_eq_mul]
  have hns : ((n:ℕ):ℝ) ≠ 0 := by exact_mod_cast hn
  have hA : (((n : ℚ) * (x * x) : ℚ) : ℝ) / ((n:ℕ) : ℝ) = (x:ℝ)^2 := by
    push_cast
    field_simp
    ring
  rw [hA]
  exact Real.sqrt_sq (by exact_mod_cast hx)

theorem logb_ten_eps : Real.logb 10 (1e-10 : ℝ) = -10 := by
  have h2 : (10:ℝ) ^ (-10:ℝ) = ((10:ℝ) ^ ((10:ℕ):ℝ))⁻¹ := by
    rw [← Real.rpow_neg (by norm_num : (0:ℝ) ≤ 10)]
    norm_num
  have h3 : (10:ℝ) ^ ((10:ℕ):ℝ) = (10:ℝ) ^ (10:ℕ) := Real.rpow_natCast 10 10
  have h1 : (1e-10 : ℝ) = (10:ℝ) ^ (-10 : ℝ) := by
    rw [h2, h3]
    norm_num
  rw [h1]
  exact Real.logb_rpow (by norm_num) (by norm_num)

/-- Counterexample to C7.  A concrete processed 480-sample frame whose model
output has five times the input RMS yields a reduction statistic
`20·log10(0.2)` that is strictly negative: the statistic is not clamped to
be nonnegative. -/
theorem C7_reduction_db_counterexample :
    frameReductionDb rnConst cfg0 () (List.replicate 480 (1/10)) < 0 := by
  have hfloat : convertShortToFloat (List.replicate 480 16384) =
      List.replicate 480 (1/2) := by
    unfold convertShortToFloat
    rw [List.map_replicate]
    norm_num
  have happly : applyReductionLevel cfg0 (List.replicate 480 (1/2)) (9/10) =
      List.replicate 480 (1/2) := by
    unfold applyReductionLevel
    rw [if_neg (by norm_num [cfg0])]
  have hpost : (processFrame rnConst cfg0 () (List.replicate 480 (1/10))).1 =
      List.replicate 480 (1/2) := by
    show applyReductionLevel cfg0 (convertShortToFloat (List.replicate 480 16384))
      (9/10) = List.replicate 480 (1/2)
    rw [hfloat, happly]
  unfold frameReductionDb
  rw [hpost, calculateRMS_replicate 480 (by norm_num) (1/10) (by norm_num),
    calculateRMS_replicate 480 (by norm_num) (1/2) (by norm_num)]
  unfold reductionDb
  rw [show (((1:ℚ)/2 : ℚ) : ℝ) = (1/2 : ℝ) by norm_num,
    show (((1:ℚ)/10 : ℚ) : ℝ) = (1/10 : ℝ) by norm_num]
  rw [max_eq_left (by norm_num : (1e-10:ℝ) ≤ 1/2)]
  rw [show ((1:ℝ)/10 / (1/2)) = 1/5 by norm_num]
  rw [max_eq_left (by norm_num : (1e-10:ℝ) ≤ 1/5)]
  have h4 : Real.logb 10 (1/5 : ℝ) < 0 :=
    Real.logb_neg (by norm_num) (by norm_num) (by norm_num)
  exact mul_neg_of_pos_of_neg (by norm_num) h4

/-- C7 as amended.  The per-frame reduction statistic is
`20·log10(pre_rms / post_rms)` with the *ratio* clamped below at `1e-10`
(so the statistic is bounded below by −200 dB but may be negative), and it
is nonnegative exactly when the clamped ratio is at least one — in
particular whenever `post_rms ≤ pre_rms` with `post_rms` above the epsilon.
The stats EMA (`updateStats`, alpha = 0.1) is fed these values. -/
theorem C7_reduction_db_amended :
    (∀ preRMS postRMS : ℝ, -200 ≤ reductionDb preRMS postRMS) ∧
    (∀ preRMS postRMS : ℝ, (1e-10 : ℝ) ≤ postRMS → postRMS ≤ preRMS →
      0 ≤ reductionDb preRMS postRMS) ∧
    (∀ old fed : ℝ, emaReductionLevel old fed = (1/10) * fed + (9/10) * old) := by
  refine ⟨?_, ?_, ?_⟩
  · intro preRMS postRMS
    unfold reductionDb
    have hlog : Real.logb 10 (1e-10 : ℝ) ≤
        Real.logb 10 (max (preRMS / max postRMS 1e-10) 1e-10) :=
      Real.logb_le_logb_of_le (by norm_num) (by norm_num) (le_max_right _ _)
    rw [logb_ten_eps] at hlog
    nlinarith
  · intro preRMS postRMS heps hle
    unfold reductionDb
    have hpos : (0:ℝ) < postRMS := lt_of_lt_of_le (by norm_num) heps
    have hmax : max postRMS (1e-10:ℝ) = postRMS := max_eq_left heps
    rw [hmax]
    have hone : (1:ℝ) ≤ preRMS / postRMS := (one_le_div hpos).mpr hle
    have h1 : (1:ℝ) ≤ max (preRMS / postRMS) 1e-10 :=
      le_trans hone (le_max_left _ _)
    have := Real.logb_nonneg (by norm_num : (1:ℝ) < 10) h1
    nlinarith
  · intro old fed
    unfold emaReductionLevel
    ring

/-- Witness for C7 as amended, at concrete RMS values. -/
theorem C7_reduction_db_amended_witness :
    (-200 : ℝ) ≤ reductionDb 1 2 ∧
    ((1e-10 : ℝ) ≤ 3 → (3:ℝ) ≤ 5 → 0 ≤ reductionDb 5 3) :=
  ⟨C7_reduction_db_amended.1 1 2,
   fun h1 h2 => C7_reduction_db_amended.2.1 5 3 h1 h2⟩

end Quiet
